import Mathlib

/-!
Formal model of chrome-profile-router (Go, macOS URL dispatcher).

The Go program routes each incoming URL to a Chrome profile directory by
scanning an ordered list of regex rules; unmatched URLs are handled by a
configurable strategy.  A single-instance pid-file guard, an unbuffered
channel between the Cocoa URL callback and one worker goroutine, and an
`open`-based launcher complete the program.

The development below is a shallow embedding of that code:

* a compiled regular expression (Go `*regexp.Regexp`) is represented by its
  exact-match semantics `re : List Char → Bool` (the set of character
  sequences the pattern matches in full); Go `re.MatchString(s)` is then
  "some contiguous substring of `s` is matched in full", which is exactly
  the unanchored search semantics of the `regexp` package;
* `regexp.Compile` and `url.Parse` (Go standard library collaborators) are
  abstracted as function parameters (`compile`, `parseScheme`);
* process spawning is represented by the `SpawnCall` value the code builds
  (command plus argument vector); whether the spawn fails is an oracle
  parameter `spawnFails`;
* the channel/goroutine structure of `main` is modelled as a labelled
  transition system `DStep` with rendezvous (capacity-0) hand-off, matching
  `make(chan string)`.
-/

namespace ChromeProfileRouter

/-- A routing rule as read from the JSON configuration (`Rule` in the Go
source): a regex pattern and the Chrome profile directory it routes to. -/
structure Rule where
  pattern : String
  profileDirectory : String
deriving DecidableEq, Repr

/-- A compiled rule (`compiledRule` in the Go source).  The field `re` is the
exact-match semantics of the compiled regular expression: `re l = true` iff
the pattern matches the character sequence `l` in full. -/
structure compiledRule where
  re : List Char → Bool
  profileDirectory : String

/-- Go constant `StrategyForUnknownUrlsUseBrowserDefault`. -/
def StrategyForUnknownUrlsUseBrowserDefault : String := "use-browser-default"

/-- Go constant `StrategyForUnknownUrlsUseDefaultProfile`. -/
def StrategyForUnknownUrlsUseDefaultProfile : String := "use-default-profile"

/-- The configuration fields of the Go `Config` struct that the routing and
launching code reads (the JSON-decoding and log-level fields are I/O plumbing
outside this model).  `strategyForUnknownUrls` is a `String` because the Go
type `StrategyForUnknownUrls` is a defined string type that can hold any
value the JSON file supplies. -/
structure Config where
  chromeAppPath : String
  defaultProfileDirectory : String
  strategyForUnknownUrls : String
  compiledRules : List compiledRule

/-- Go `re.MatchString s` for a compiled regex with exact-match semantics
`m`: true iff some contiguous substring of `s` (equivalently: a prefix of a
suffix of `s.toList`) is matched in full — the unanchored substring search
the `regexp` package performs. -/
def MatchString (m : List Char → Bool) (s : String) : Bool :=
  s.toList.tails.any fun t => t.inits.any m

/-- The test `r.re.MatchString(urlStr)` performed on each rule inside
`chooseProfile`. -/
def ruleMatches (r : compiledRule) (urlStr : String) : Bool :=
  MatchString r.re urlStr

/-- The `for _, r := range config.compiledRules` loop of `chooseProfile`:
profile of the first rule whose regex matches, or `none` when no rule
matches. -/
def findFirstProfile (urlStr : String) : List compiledRule → Option String
  | [] => none
  | r :: rest =>
    if ruleMatches r urlStr then some r.profileDirectory
    else findFirstProfile urlStr rest

/-- Go `chooseProfile(urlStr, config)` (pid-file version of the source): scan
the compiled rules in order and return the first match; if no rule matches,
return the default profile under the `use-default-profile` strategy and the
empty string otherwise (`use-browser-default` behaviour). -/
def chooseProfile (urlStr : String) (config : Config) : String :=
  match findFirstProfile urlStr config.compiledRules with
  | some p => p
  | none =>
    if config.strategyForUnknownUrls = StrategyForUnknownUrlsUseDefaultProfile then
      config.defaultProfileDirectory
    else
      ""

theorem MatchString_iff (m : List Char → Bool) (s : String) :
    MatchString m s = true ↔
      ∃ pre mid suf, s.toList = pre ++ mid ++ suf ∧ m mid = true := by
  unfold MatchString
  rw [List.any_eq_true]
  constructor
  · rintro ⟨t, ht, hin⟩
    rw [List.any_eq_true] at hin
    obtain ⟨mid, hmid, hm⟩ := hin
    obtain ⟨pre, hpre⟩ := (List.mem_tails _ _).mp ht
    obtain ⟨suf, hsuf⟩ := (List.mem_inits _ _).mp hmid
    exact ⟨pre, mid, suf, by rw [← hpre, ← hsuf, List.append_assoc], hm⟩
  · rintro ⟨pre, mid, suf, hdecomp, hm⟩
    refine ⟨mid ++ suf, (List.mem_tails _ _).mpr ⟨pre, ?_⟩, ?_⟩
    · rw [← List.append_assoc, ← hdecomp]
    · rw [List.any_eq_true]
      exact ⟨mid, (List.mem_inits _ _).mpr ⟨suf, rfl⟩, hm⟩

theorem findFirstProfile_eq_none (urlStr : String) (l : List compiledRule)
    (h : ∀ r ∈ l, ruleMatches r urlStr = false) :
    findFirstProfile urlStr l = none := by
  induction l with
  | nil => rfl
  | cons r rest ih =>
    simp only [findFirstProfile]
    rw [if_neg]
    · exact ih fun r' hr' => h r' (List.mem_cons_of_mem r hr')
    · simp [h r (List.mem_cons_self r rest)]

theorem findFirstProfile_first (urlStr : String) (l : List compiledRule)
    (i : Nat) (hi : i < l.length)
    (hm : ruleMatches (l.get ⟨i, hi⟩) urlStr = true)
    (hf : ∀ j (hj : j < i), ruleMatches (l.get ⟨j, Nat.lt_trans hj hi⟩) urlStr = false) :
    findFirstProfile urlStr l = some (l.get ⟨i, hi⟩).profileDirectory := by
  induction l generalizing i with
  | nil => exact absurd hi (Nat.not_lt_zero i)
  | cons r rest ih =>
    cases i with
    | zero =>
      simp only [List.get] at hm ⊢
      simp only [findFirstProfile, if_pos hm]
    | succ k =>
      have hr : ruleMatches r urlStr = false := hf 0 (Nat.succ_pos k)
      simp only [findFirstProfile, hr, Bool.false_eq_true, if_false]
      have hk : k < rest.length := Nat.lt_of_succ_lt_succ hi
      have := ih k hk hm (fun j hj => hf (j + 1) (Nat.succ_lt_succ hj))
      simpa using this

/-- C1: for every URL and every compiled rule set, `chooseProfile` returns the
profile directory of the first rule in source order whose pattern matches
anywhere in the URL (a rule matches iff some contiguous substring of the URL
is matched in full by its regex — unanchored search), never the profile of a
later rule; and when no rule matches, the result is the strategy-determined
fallback, so (whenever the fallback values are distinct from the rule
profiles) no rule profile is returned. -/
theorem chooseProfile_first_match_wins (url : String) (cfg : Config) :
    (∀ r ∈ cfg.compiledRules,
        (ruleMatches r url = true ↔
          ∃ pre mid suf, url.toList = pre ++ mid ++ suf ∧ r.re mid = true)) ∧
    (∀ i (hi : i < cfg.compiledRules.length),
        ruleMatches (cfg.compiledRules.get ⟨i, hi⟩) url = true →
        (∀ j (hj : j < i),
          ruleMatches (cfg.compiledRules.get ⟨j, Nat.lt_trans hj hi⟩) url = false) →
        chooseProfile url cfg = (cfg.compiledRules.get ⟨i, hi⟩).profileDirectory) ∧
    ((∀ r ∈ cfg.compiledRules, ruleMatches r url = false) →
        chooseProfile url cfg =
          if cfg.strategyForUnknownUrls = StrategyForUnknownUrlsUseDefaultProfile then
            cfg.defaultProfileDirectory
          else "") ∧
    ((∀ r ∈ cfg.compiledRules, ruleMatches r url = false) →
        (∀ r ∈ cfg.compiledRules,
          r.profileDirectory ≠ cfg.defaultProfileDirectory ∧ r.profileDirectory ≠ "") →
        ∀ r ∈ cfg.compiledRules, chooseProfile url cfg ≠ r.profileDirectory) := by
  refine ⟨?_, ?_, ?_, ?_⟩
  · intro r _
    exact MatchString_iff r.re url
  · intro i hi hm hf
    unfold chooseProfile
    rw [findFirstProfile_first url cfg.compiledRules i hi hm hf]
  · intro h
    unfold chooseProfile
    rw [findFirstProfile_eq_none url cfg.compiledRules h]
  · intro h hdist r hr
    unfold chooseProfile
    rw [findFirstProfile_eq_none url cfg.compiledRules h]
    by_cases hs : cfg.strategyForUnknownUrls = StrategyForUnknownUrlsUseDefaultProfile
    · rw [if_pos hs]
      exact fun he => (hdist r hr).1 he.symm
    · rw [if_neg hs]
      exact fun he => (hdist r hr).2 he.symm

/-- Concrete rule set for the C1 witness: the compiled form of the spec
example rules `[("a", "P1"), (".*", "P2")]` — the first regex matches exactly
the one-character string "a" (so it matches "a.com" by substring search), the
second matches everything. -/
def cfgFirstMatch : Config :=
  { chromeAppPath := "/Applications/Google Chrome.app"
    defaultProfileDirectory := "Default"
    strategyForUnknownUrls := "use-default-profile"
    compiledRules :=
      [ { re := fun l => decide (l = ['a']), profileDirectory := "P1" }
      , { re := fun _ => true, profileDirectory := "P2" } ] }

/-- C1 witness: on URL "a.com" both rules of `cfgFirstMatch` match, and the
decision is "P1", the profile of the first rule. -/
theorem chooseProfile_first_match_wins_witness :
    chooseProfile "a.com" cfgFirstMatch = "P1" :=
  (chooseProfile_first_match_wins "a.com" cfgFirstMatch).2.1 0 (by decide)
    (by decide) (fun j hj => absurd hj (Nat.not_lt_zero j))

/-- Digit-string parsing used by `strconv.Atoi`: all characters must be
decimal digits (and there must be at least one). -/
def parseDigits (cs : List Char) : Option Nat :=
  if cs = [] then none
  else if cs.all Char.isDigit then
    some (cs.foldl (fun n c => n * 10 + (c.toNat - '0'.toNat)) 0)
  else none

/-- Go `strconv.Atoi`: an optional sign followed by decimal digits; any other
input is an error (`none`). -/
def Atoi (s : String) : Option Int :=
  match s.toList with
  | '-' :: rest => (parseDigits rest).map fun n => -(n : Int)
  | '+' :: rest => (parseDigits rest).map fun n => (n : Int)
  | cs => (parseDigits cs).map fun n => (n : Int)

/-- The slice of operating-system state the single-instance guard reads:
the contents of `/tmp/chrome-profile-router.pid` (`none` when the file cannot
be read) and the liveness check `syscall.Kill(pid, 0) == nil`. -/
structure SysState where
  pidFile : Option String
  alive : Int → Bool

/-- Go `isRunning(pidFilePath)`: true iff the pid file is readable, its
contents parse as an integer (`strconv.Atoi`), and that process is alive. -/
def isRunning (st : SysState) : Bool :=
  match st.pidFile with
  | some data =>
    match Atoi data with
    | some pid => st.alive pid
    | none => false
  | none => false

/-- Outcome of the single-instance section of `main` (pid-file version):
either the process exits with the given status code, or it proceeds to the
listener with the pid file rewritten. -/
inductive GuardOutcome where
  | exit (code : Nat)
  | proceed (st : SysState)

/-- The single-instance acquisition step of `main`: `if isRunning(pidFilePath)
then os.Exit(0)` else write our own pid to the pid file and continue (the
`os.WriteFile` is modelled as succeeding; its error path exits 2 and is not
part of the acquisition policy). -/
def acquireSingleInstance (st : SysState) (myPid : Int) : GuardOutcome :=
  if isRunning st then GuardOutcome.exit 0
  else GuardOutcome.proceed { st with pidFile := some (toString myPid) }

/-- C3: the liveness-checked single-instance policy.  `isRunning` holds
exactly when the pid file records a live process; in that case the second
process exits immediately with status 0 (not taking the dispatcher role),
and otherwise — recorded process dead, contents unparsable, or file
unreadable — the resource is treated as stale, overwritten with the current
process id, and the process proceeds. -/
theorem singleInstance_liveness_check (st : SysState) (myPid : Int) :
    (isRunning st = true ↔
      ∃ data pid, st.pidFile = some data ∧ Atoi data = some pid ∧
        st.alive pid = true) ∧
    (isRunning st = true → acquireSingleInstance st myPid = GuardOutcome.exit 0) ∧
    (isRunning st = false →
      acquireSingleInstance st myPid =
        GuardOutcome.proceed { st with pidFile := some (toString myPid) }) := by
  refine ⟨?_, ?_, ?_⟩
  · constructor
    · intro h
      cases hd : st.pidFile with
      | none =>
        simp only [isRunning, hd] at h
        exact absurd h Bool.false_ne_true
      | some data =>
        cases hpid : Atoi data with
        | none =>
          simp only [isRunning, hd, hpid] at h
          exact absurd h Bool.false_ne_true
        | some pid =>
          simp only [isRunning, hd, hpid] at h
          exact ⟨data, pid, rfl, hpid, h⟩
    · rintro ⟨data, pid, hd, hpid, halive⟩
      simp only [isRunning, hd, hpid]
      exact halive
  · intro h
    simp [acquireSingleInstance, h]
  · intro h
    simp [acquireSingleInstance, h]

/-- C3 witness: a pid file recording process 123 while process 123 is alive
makes the second instance exit with status 0. -/
theorem singleInstance_liveness_check_witness :
    acquireSingleInstance ⟨some "123", fun p => p == 123⟩ 456 = GuardOutcome.exit 0 :=
  (singleInstance_liveness_check ⟨some "123", fun p => p == 123⟩ 456).2.1 (by decide)

/-- Validity of one configured rule, as checked by the compilation loop of
`loadConfig`: non-empty pattern, non-empty profile directory, and a pattern
the regex compiler accepts.  The compiler (`regexp.Compile`) is abstracted as
`compile`, returning `none` exactly on the patterns it rejects. -/
def RuleOk (compile : String → Option (List Char → Bool)) (r : Rule) : Prop :=
  r.pattern ≠ "" ∧ r.profileDirectory ≠ "" ∧ (compile r.pattern).isSome = true

instance RuleOk.decidable (compile : String → Option (List Char → Bool)) (r : Rule) :
    Decidable (RuleOk compile r) := by
  unfold RuleOk
  infer_instance

/-- The `for i, r := range cfg.Rules` compilation loop of `loadConfig`,
started at index `i`: rejects a rule with an empty pattern or profile
directory, or whose pattern fails to compile, returning the offending index
(`rule %d invalid` / `rule %d: compile regexp`); otherwise appends the
compiled rule and continues. -/
def compileRulesFrom (compile : String → Option (List Char → Bool)) :
    Nat → List Rule → Except Nat (List compiledRule)
  | _, [] => Except.ok []
  | i, r :: rest =>
    if r.pattern = "" ∨ r.profileDirectory = "" then Except.error i
    else
      match compile r.pattern with
      | none => Except.error i
      | some m =>
        match compileRulesFrom compile (i + 1) rest with
        | Except.error j => Except.error j
        | Except.ok cr =>
          Except.ok ({ re := m, profileDirectory := r.profileDirectory } :: cr)

/-- The rule-compilation part of `loadConfig`: validate and compile the
configured rules starting at index 0. -/
def compileRules (compile : String → Option (List Char → Bool))
    (rules : List Rule) : Except Nat (List compiledRule) :=
  compileRulesFrom compile 0 rules

theorem compileRulesFrom_ok_iff (compile : String → Option (List Char → Bool))
    (rules : List Rule) :
    ∀ i, (∃ cr, compileRulesFrom compile i rules = Except.ok cr) ↔
      ∀ r ∈ rules, RuleOk compile r := by
  induction rules with
  | nil =>
    intro i
    exact ⟨fun _ r hr => absurd hr (List.not_mem_nil r), fun _ => ⟨[], rfl⟩⟩
  | cons r rest ih =>
    intro i
    constructor
    · rintro ⟨cr, hcr⟩
      by_cases hbad : r.pattern = "" ∨ r.profileDirectory = ""
      · simp only [compileRulesFrom, if_pos hbad] at hcr
        exact Except.noConfusion hcr
      · cases hc : compile r.pattern with
        | none =>
          simp only [compileRulesFrom, if_neg hbad, hc] at hcr
          exact Except.noConfusion hcr
        | some m =>
          cases hrec : compileRulesFrom compile (i + 1) rest with
          | error j =>
            simp only [compileRulesFrom, if_neg hbad, hc, hrec] at hcr
            exact Except.noConfusion hcr
          | ok cr' =>
            intro r' hr'
            rcases List.mem_cons.mp hr' with h | h
            · subst h
              push_neg at hbad
              exact ⟨hbad.1, hbad.2, by rw [hc]; rfl⟩
            · exact ((ih (i + 1)).mp ⟨cr', hrec⟩) r' h
    · intro hall
      obtain ⟨h1, h2, h3⟩ := hall r (List.mem_cons_self r rest)
      obtain ⟨cr', hcr'⟩ :=
        (ih (i + 1)).mpr fun r' h => hall r' (List.mem_cons_of_mem r h)
      obtain ⟨m, hm⟩ := Option.isSome_iff_exists.mp h3
      refine ⟨{ re := m, profileDirectory := r.profileDirectory } :: cr', ?_⟩
      simp only [compileRulesFrom, if_neg (not_or.mpr ⟨h1, h2⟩), hm, hcr']

theorem compileRulesFrom_error (compile : String → Option (List Char → Bool))
    (rules : List Rule) :
    ∀ i k, compileRulesFrom compile i rules = Except.error k →
      ∃ j, k = i + j ∧ ∃ hj : j < rules.length,
        ¬ RuleOk compile (rules.get ⟨j, hj⟩) ∧
        ∀ m (hm : m < j), RuleOk compile (rules.get ⟨m, Nat.lt_trans hm hj⟩) := by
  induction rules with
  | nil =>
    intro i k h
    exact absurd h (by simp [compileRulesFrom])
  | cons r rest ih =>
    intro i k h
    by_cases hbad : r.pattern = "" ∨ r.profileDirectory = ""
    · simp only [compileRulesFrom, if_pos hbad] at h
      injection h with h
      subst h
      refine ⟨0, by omega, Nat.succ_pos rest.length, ?_, ?_⟩
      · rintro ⟨h1, h2, _⟩
        rcases hbad with hb | hb
        · exact h1 hb
        · exact h2 hb
      · intro m hm
        exact absurd hm (Nat.not_lt_zero m)
    · cases hc : compile r.pattern with
      | none =>
        simp only [compileRulesFrom, if_neg hbad, hc] at h
        injection h with h
        subst h
        refine ⟨0, by omega, Nat.succ_pos rest.length, ?_, ?_⟩
        · intro hro
          have h3 : (compile r.pattern).isSome = true := hro.2.2
          rw [hc] at h3
          exact absurd h3 (by simp)
        · intro m hm
          exact absurd hm (Nat.not_lt_zero m)
      | some mch =>
        cases hrec : compileRulesFrom compile (i + 1) rest with
        | error j =>
          simp only [compileRulesFrom, if_neg hbad, hc, hrec] at h
          injection h with h
          subst h
          obtain ⟨j', hj'eq, hj', hbadj, hprior⟩ := ih (i + 1) j hrec
          push_neg at hbad
          refine ⟨j' + 1, by omega, Nat.succ_lt_succ hj', hbadj, ?_⟩
          intro m hm
          cases m with
          | zero =>
            have hOk : RuleOk compile r := ⟨hbad.1, hbad.2, by rw [hc]; rfl⟩
            exact hOk
          | succ m' => exact hprior m' (Nat.lt_of_succ_lt_succ hm)
        | ok cr' =>
          simp only [compileRulesFrom, if_neg hbad, hc, hrec] at h
          exact Except.noConfusion h

theorem compileRulesFrom_ok_spec (compile : String → Option (List Char → Bool))
    (rules : List Rule) :
    ∀ i cr, compileRulesFrom compile i rules = Except.ok cr →
      cr.length = rules.length ∧
      ∀ j (hj : j < rules.length) (hj' : j < cr.length),
        (cr.get ⟨j, hj'⟩).profileDirectory = (rules.get ⟨j, hj⟩).profileDirectory ∧
        compile (rules.get ⟨j, hj⟩).pattern = some ((cr.get ⟨j, hj'⟩).re) := by
  induction rules with
  | nil =>
    intro i cr h
    simp only [compileRulesFrom] at h
    cases h
    exact ⟨rfl, fun j hj => absurd hj (Nat.not_lt_zero j)⟩
  | cons r rest ih =>
    intro i cr h
    by_cases hbad : r.pattern = "" ∨ r.profileDirectory = ""
    · simp only [compileRulesFrom, if_pos hbad] at h
      exact Except.noConfusion h
    · cases hc : compile r.pattern with
      | none =>
        simp only [compileRulesFrom, if_neg hbad, hc] at h
        exact Except.noConfusion h
      | some mch =>
        cases hrec : compileRulesFrom compile (i + 1) rest with
        | error j =>
          simp only [compileRulesFrom, if_neg hbad, hc, hrec] at h
          exact Except.noConfusion h
        | ok cr' =>
          simp only [compileRulesFrom, if_neg hbad, hc, hrec] at h
          obtain ⟨hlen, hspec⟩ := ih (i + 1) cr' hrec
          injection h with h
          subst h
          refine ⟨by simp [hlen], ?_⟩
          intro j hj hj'
          cases j with
          | zero => exact ⟨rfl, hc⟩
          | succ j' =>
            exact hspec j' (Nat.lt_of_succ_lt_succ hj) (Nat.lt_of_succ_lt_succ hj')

/-- C6: rule compilation.  `compileRules` (the validation loop of
`loadConfig`) succeeds iff every rule has a non-empty pattern, a non-empty
profile directory, and a pattern the regex compiler accepts; on failure it
returns (and its error message names) the index of the first offending rule
and produces no compiled rules; on success it yields exactly one compiled
rule per input rule, in source order, pairing each rule's compiled pattern
with its profile directory. -/
theorem loadConfig_rule_validation (compile : String → Option (List Char → Bool))
    (rules : List Rule) :
    ((∃ cr, compileRules compile rules = Except.ok cr) ↔
      ∀ r ∈ rules, RuleOk compile r) ∧
    (∀ k, compileRules compile rules = Except.error k →
      ∃ hk : k < rules.length,
        ¬ RuleOk compile (rules.get ⟨k, hk⟩) ∧
        ∀ m (hm : m < k), RuleOk compile (rules.get ⟨m, Nat.lt_trans hm hk⟩)) ∧
    (∀ cr, compileRules compile rules = Except.ok cr →
      cr.length = rules.length ∧
      ∀ j (hj : j < rules.length) (hj' : j < cr.length),
        (cr.get ⟨j, hj'⟩).profileDirectory = (rules.get ⟨j, hj⟩).profileDirectory ∧
        compile (rules.get ⟨j, hj⟩).pattern = some ((cr.get ⟨j, hj'⟩).re)) := by
  refine ⟨compileRulesFrom_ok_iff compile rules 0, ?_, ?_⟩
  · intro k h
    obtain ⟨j, hjeq, hj, hbadj, hprior⟩ := compileRulesFrom_error compile rules 0 k h
    have : k = j := by omega
    subst this
    exact ⟨hj, hbadj, hprior⟩
  · intro cr h
    exact compileRulesFrom_ok_spec compile rules 0 cr h

/-- Concrete regex compiler for the C6 witness: rejects the empty pattern and
the pattern "(" (an unparsable regular expression), compiles everything else
to an exact-match test against the pattern's characters. -/
def compileW (p : String) : Option (List Char → Bool) :=
  if p = "" then none
  else if p = "(" then none
  else some fun l => l = p.toList

/-- C6 witness: for the rules `[("a", "P1"), ("(", "P2"), ("b", "P3")]` the
compilation loop stops with error index 1 — the first (and only) offending
rule, whose pattern "(" does not compile. -/
theorem loadConfig_rule_validation_witness :
    ∃ hk : 1 < ([⟨"a", "P1"⟩, ⟨"(", "P2"⟩, ⟨"b", "P3"⟩] : List Rule).length,
      ¬ RuleOk compileW
          (([⟨"a", "P1"⟩, ⟨"(", "P2"⟩, ⟨"b", "P3"⟩] : List Rule).get ⟨1, hk⟩) ∧
      ∀ m (hm : m < 1),
        RuleOk compileW
          (([⟨"a", "P1"⟩, ⟨"(", "P2"⟩, ⟨"b", "P3"⟩] : List Rule).get
            ⟨m, Nat.lt_trans hm hk⟩) :=
  (loadConfig_rule_validation compileW [⟨"a", "P1"⟩, ⟨"(", "P2"⟩, ⟨"b", "P3"⟩]).2.1
    1 rfl

/-- A process-spawn invocation (`exec.Command(name, args...)`): the command
name and its argument vector. -/
structure SpawnCall where
  cmd : String
  args : List String
deriving DecidableEq, Repr

/-- Go `strings.HasPrefix(s, pre)`: `s` starts with the characters of
`pre`. -/
def hasPrefixStr (s pre : String) : Bool :=
  pre.toList.isPrefixOf s.toList

/-- The URL-normalization step of `openInChrome`, with `parseScheme`
abstracting `url.Parse` (`some s` means the parse succeeded and the scheme is
`s`; `none` means a parse error): a URL that parses with an empty scheme and
does not start with "http" gets "http://" prepended; any other URL — parse
error, non-empty scheme, or a string starting with "http" — is handed off
unchanged. -/
def normalizeURL (parseScheme : String → Option String) (urlStr : String) : String :=
  match parseScheme urlStr with
  | some s =>
    if s = "" ∧ ¬ (hasPrefixStr urlStr "http") then "http://" ++ urlStr else urlStr
  | none => urlStr

/-- The argument vector `openInChrome` builds for `open` (pid-file version of
the source): `-na <chromeAppPath> --args`, then `--profile-directory=<dir>`
only when the profile is non-empty, then the normalized URL last. -/
def openInChromeArgs (parseScheme : String → Option String)
    (chromeAppPath profileDir urlStr : String) : List String :=
  let u := normalizeURL parseScheme urlStr
  let args := ["-na", chromeAppPath, "--args"]
  let args :=
    if profileDir ≠ "" then args ++ ["--profile-directory=" ++ profileDir]
    else args
  args ++ [u]

/-- The `exec.Command("open", args...)` invocation of `openInChrome`
(pid-file version of the source). -/
def openInChrome (parseScheme : String → Option String)
    (chromeAppPath profileDir urlStr : String) : SpawnCall :=
  ⟨"open", openInChromeArgs parseScheme chromeAppPath profileDir urlStr⟩

/-- C7: launcher hand-off.  The URL is prefixed with "http://" exactly when it
parses with no scheme and does not start with "http", and is otherwise passed
unchanged; the spawn invocation is `open` with the application path after the
new-instance activation flag `-na`, a profile-selection argument only when
the profile is non-empty, and the (possibly prefixed) URL always as the final
argument. -/
theorem openInChrome_handoff (parseScheme : String → Option String)
    (appPath profileDir urlStr : String) :
    (parseScheme urlStr = some "" → hasPrefixStr urlStr "http" = false →
      normalizeURL parseScheme urlStr = "http://" ++ urlStr) ∧
    (hasPrefixStr urlStr "http" = true → normalizeURL parseScheme urlStr = urlStr) ∧
    (∀ s, parseScheme urlStr = some s → s ≠ "" →
      normalizeURL parseScheme urlStr = urlStr) ∧
    (parseScheme urlStr = none → normalizeURL parseScheme urlStr = urlStr) ∧
    (openInChrome parseScheme appPath profileDir urlStr =
      ⟨"open",
        ["-na", appPath, "--args"] ++
          (if profileDir = "" then [] else ["--profile-directory=" ++ profileDir]) ++
          [normalizeURL parseScheme urlStr]⟩) ∧
    ((openInChromeArgs parseScheme appPath profileDir urlStr).getLast? =
      some (normalizeURL parseScheme urlStr)) := by
  refine ⟨?_, ?_, ?_, ?_, ?_, ?_⟩
  · intro hp hs
    simp [normalizeURL, hp, hs]
  · intro hs
    unfold normalizeURL
    cases parseScheme urlStr with
    | none => rfl
    | some s => simp [hs]
  · intro s hp hs
    simp [normalizeURL, hp, hs]
  · intro hp
    simp [normalizeURL, hp]
  · unfold openInChrome openInChromeArgs
    by_cases hd : profileDir = ""
    · simp [hd]
    · simp [hd]
  · unfold openInChromeArgs
    by_cases hd : profileDir = ""
    · simp [hd]
    · simp [hd]

/-- C7 witness: the bare URL "example.com" (scheme-less, not starting with
"http") is prefixed, and with profile "Work" the spawn is
`open -na <app> --args --profile-directory=Work http://example.com`. -/
theorem openInChrome_handoff_witness :
    normalizeURL (fun _ => some "") "example.com" = "http://" ++ "example.com" :=
  (openInChrome_handoff (fun _ => some "") "/Applications/Google Chrome.app"
    "Work" "example.com").1 rfl (by decide)

/-- The per-URL routing report of `processURL`
(`Routing: %s  ->  profile-directory=%q`). -/
def routingLine (urlStr profile : String) : String :=
  "Routing: " ++ urlStr ++ "  ->  profile-directory=" ++ profile

/-- The error report of `processURL` when the launch fails
(`Failed to open URL in Chrome: %v`). -/
def launchFailureMessage : String := "Failed to open URL in Chrome"

/-- Result of one `processURL` call: the spawn it performed and the log lines
it emitted. -/
structure ProcessOutcome where
  spawn : SpawnCall
  logLines : List String
deriving DecidableEq, Repr

/-- Go `processURL(urlStr, config)` (pid-file version of the source): choose
a profile, log the routing decision, invoke `openInChrome` unconditionally,
and log an error line when the spawn fails (`spawnFails` abstracts the
outcome of `cmd.Run()`).  The function always returns: a failed launch is
reported, never propagated. -/
def processURL (parseScheme : String → Option String)
    (spawnFails : SpawnCall → Bool) (config : Config) (urlStr : String) :
    ProcessOutcome :=
  let profile := chooseProfile urlStr config
  let sp := openInChrome parseScheme config.chromeAppPath profile urlStr
  { spawn := sp
    logLines := [routingLine urlStr profile] ++
      (if spawnFails sp then [launchFailureMessage] else []) }

/-- The worker goroutine `for url := range urlListener { processURL(url,
config) }`, applied to the sequence of URLs it drains: every URL is
processed, in order, whatever the launch outcomes. -/
def workerLoop (parseScheme : String → Option String)
    (spawnFails : SpawnCall → Bool) (config : Config) (urls : List String) :
    List ProcessOutcome :=
  urls.map (processURL parseScheme spawnFails config)

/-- Configuration used for the C2 evaluation: one rule routing URLs matching
"work" to profile "Work", strategy `use-browser-default`. -/
def cfgBrowserDefault : Config :=
  { chromeAppPath := "/Applications/Google Chrome.app"
    defaultProfileDirectory := "Default"
    strategyForUnknownUrls := "use-browser-default"
    compiledRules :=
      [ { re := fun l => decide (l = "work".toList), profileDirectory := "Work" } ] }

/-- C2, evaluated at the failing input: on the unmatched URL
"https://example.com" under the `use-browser-default` strategy the routing
decision is the empty profile (the "do not interfere" signal), yet
`processURL` still invokes the launcher — it spawns
`open -na <chrome> --args https://example.com`, opening the URL in Chrome
without a profile argument instead of leaving it to the system default
browser as the specification and the README describe. -/
theorem browserDefault_still_launches :
    chooseProfile "https://example.com" cfgBrowserDefault = "" ∧
    (processURL (fun _ => some "https") (fun _ => false) cfgBrowserDefault
        "https://example.com").spawn =
      ⟨"open", ["-na", "/Applications/Google Chrome.app", "--args",
                "https://example.com"]⟩ := by
  exact ⟨by decide, by decide⟩

/-- C8: worker robustness.  The worker loop processes every drained URL in
order whatever the launch outcomes: the output has one entry per URL, the
i-th entry is exactly the processing of the i-th URL (so a failed launch for
an earlier URL never prevents a later URL from being processed), and each
`processURL` call reports a failed launch with exactly one error line after
the routing line while a successful launch adds no error line — `processURL`
is a total function, so no URL can crash the worker. -/
theorem worker_survives_launch_failures (parseScheme : String → Option String)
    (spawnFails : SpawnCall → Bool) (config : Config) (urls : List String) :
    (workerLoop parseScheme spawnFails config urls).length = urls.length ∧
    (∀ i u, urls.get? i = some u →
      (workerLoop parseScheme spawnFails config urls).get? i =
        some (processURL parseScheme spawnFails config u)) ∧
    (∀ u,
      (spawnFails (processURL parseScheme spawnFails config u).spawn = true →
        (processURL parseScheme spawnFails config u).logLines =
          [routingLine u (chooseProfile u config), launchFailureMessage]) ∧
      (spawnFails (processURL parseScheme spawnFails config u).spawn = false →
        (processURL parseScheme spawnFails config u).logLines =
          [routingLine u (chooseProfile u config)])) := by
  refine ⟨List.length_map urls (processURL parseScheme spawnFails config), ?_, ?_⟩
  · intro i u hu
    rw [List.get?_eq_getElem?] at hu ⊢
    simp [workerLoop, List.getElem?_map, hu]
  · intro u
    constructor
    · intro hfail
      simp only [processURL] at hfail ⊢
      simp [hfail]
    · intro hok
      simp only [processURL] at hok ⊢
      simp [hok]

/-- C8 witness: a two-URL drain where the launch of the first URL fails and
the launch of the second succeeds still processes the second URL. -/
theorem worker_survives_launch_failures_witness :
    (workerLoop (fun _ => some "https") (fun sp => decide (sp.args.getLast? = some "https://a.com"))
        cfgBrowserDefault ["https://a.com", "https://b.com"]).get? 1 =
      some (processURL (fun _ => some "https")
        (fun sp => decide (sp.args.getLast? = some "https://a.com"))
        cfgBrowserDefault "https://b.com") :=
  (worker_survives_launch_failures (fun _ => some "https")
    (fun sp => decide (sp.args.getLast? = some "https://a.com"))
    cfgBrowserDefault ["https://a.com", "https://b.com"]).2.1 1 "https://b.com" rfl

/-- Go `chooseProfile(urlStr, compiled, fallback)` from the one-shot version
of the source: profile of the first matching rule, else the fallback
(`config.DefaultProfileDirectory`). -/
def chooseProfileOneShot (urlStr : String) (compiled : List compiledRule)
    (fallback : String) : String :=
  match compiled with
  | [] => fallback
  | r :: rest =>
    if ruleMatches r urlStr then r.profileDirectory
    else chooseProfileOneShot urlStr rest fallback

/-- `openInChrome` from the one-shot version of the source, where the
profile-selection argument is always present. -/
def openInChromeOneShot (parseScheme : String → Option String)
    (chromeAppPath profileDir urlStr : String) : SpawnCall :=
  ⟨"open", ["-na", chromeAppPath, "--args",
            "--profile-directory=" ++ profileDir,
            normalizeURL parseScheme urlStr]⟩

/-- The `Config` of the one-shot version of the source (no unknown-URL
strategy field). -/
structure OneShotConfig where
  chromeAppPath : String
  defaultProfileDirectory : String
  compiledRules : List compiledRule

/-- `processURL` from the one-shot version of the source: route, report the
decision, launch, report a launch failure. -/
def processURLOneShot (parseScheme : String → Option String)
    (spawnFails : SpawnCall → Bool) (config : OneShotConfig) (urlStr : String) :
    ProcessOutcome :=
  let profile :=
    chooseProfileOneShot urlStr config.compiledRules config.defaultProfileDirectory
  let sp := openInChromeOneShot parseScheme config.chromeAppPath profile urlStr
  { spawn := sp
    logLines := [routingLine urlStr profile] ++
      (if spawnFails sp then [launchFailureMessage] else []) }

/-- The fixed one-shot window: `time.After(4 * time.Second)`. -/
def oneShotTimeoutSeconds : Nat := 4

/-- What the one-shot `select` observes within the window: a URL received
from the `urlListener` channel, or the timeout firing first. -/
inductive OneShotEvent where
  | url (u : String)
  | timeout

/-- Observable result of the one-shot goroutine of `main`: the `os.Exit`
code, the spawns attempted, and the stderr lines printed. -/
structure OneShotResult where
  exitCode : Nat
  spawns : List SpawnCall
  stderrLines : List String
deriving DecidableEq, Repr

/-- The one-shot `select` of `main`: a URL arriving within the window is
processed (`processURL`, one launch) and the process exits 0; otherwise the
timeout prints "No URLs received within timeout" and the process exits 1. -/
def oneShotDispatch (parseScheme : String → Option String)
    (spawnFails : SpawnCall → Bool) (config : OneShotConfig) :
    OneShotEvent → OneShotResult
  | OneShotEvent.url u =>
    let out := processURLOneShot parseScheme spawnFails config u
    { exitCode := 0, spawns := [out.spawn], stderrLines := out.logLines }
  | OneShotEvent.timeout =>
    { exitCode := 1, spawns := [],
      stderrLines := ["No URLs received within timeout"] }

/-- C4: one-shot mode.  The wait window is the fixed 4 time units; when a URL
arrives within it, exactly one launch is attempted and the process exits with
status 0; when the timeout fires first, no launch is attempted, the process
reports that no URL was received, and exits with status 1. -/
theorem oneShot_exit_codes (parseScheme : String → Option String)
    (spawnFails : SpawnCall → Bool) (config : OneShotConfig) (u : String) :
    oneShotTimeoutSeconds = 4 ∧
    (oneShotDispatch parseScheme spawnFails config (OneShotEvent.url u)).exitCode = 0 ∧
    (oneShotDispatch parseScheme spawnFails config (OneShotEvent.url u)).spawns =
      [(processURLOneShot parseScheme spawnFails config u).spawn] ∧
    (oneShotDispatch parseScheme spawnFails config OneShotEvent.timeout).exitCode = 1 ∧
    (oneShotDispatch parseScheme spawnFails config OneShotEvent.timeout).spawns = [] ∧
    (oneShotDispatch parseScheme spawnFails config OneShotEvent.timeout).stderrLines =
      ["No URLs received within timeout"] :=
  ⟨rfl, rfl, rfl, rfl, rfl, rfl⟩

/-- Capacity of the `urlListener` channel: `make(chan string)` creates an
unbuffered channel. -/
def urlListenerCapacity : Nat := 0

/-- State of the dispatcher: `arrived` is the full sequence of URLs the OS
URL-event source has delivered to `HandleURL` so far (ghost history, in
arrival order); `pending` are the delivered URLs whose channel send has not
yet completed (their `HandleURL` calls are blocked on `urlListener <- ...`,
queued in FIFO order); `busy` is the URL the worker goroutine is currently
processing, if any; `processed` are the completed URLs in completion
order. -/
structure DispatchState where
  arrived : List String
  pending : List String
  busy : Option String
  processed : List String
deriving DecidableEq, Repr

/-- The initial dispatcher state: nothing delivered, the worker blocked on
the channel receive. -/
def initDispatch : DispatchState := ⟨[], [], none, []⟩

/-- One step of the dispatcher of the pid-file `main`:
`arrive` — the OS URL-event source calls `HandleURL` with a new URL;
`handoff` — the channel rendezvous: the unbuffered send of the oldest
pending URL completes exactly when the worker is back at the
`range urlListener` receive (`busy = none`), and the worker takes that URL;
`finish` — the worker finishes `processURL` for its current URL. -/
inductive DStep : DispatchState → DispatchState → Prop
  | arrive (s : DispatchState) (u : String) :
      DStep s ⟨s.arrived ++ [u], s.pending ++ [u], s.busy, s.processed⟩
  | handoff (s : DispatchState) (u : String) (rest : List String) :
      s.pending = u :: rest → s.busy = none →
      DStep s ⟨s.arrived, rest, some u, s.processed⟩
  | finish (s : DispatchState) (u : String) :
      s.busy = some u →
      DStep s ⟨s.arrived, s.pending, none, s.processed ++ [u]⟩

/-- States the dispatcher can reach from startup. -/
def Reachable (s : DispatchState) : Prop :=
  Relation.ReflTransGen DStep initDispatch s

theorem reachable_order_invariant (s : DispatchState) (h : Reachable s) :
    s.processed ++ s.busy.toList ++ s.pending = s.arrived := by
  induction h with
  | refl => rfl
  | tail _ hstep ih =>
    cases hstep with
    | arrive u =>
      rw [← ih]
      simp [List.append_assoc]
    | handoff u rest hp hb =>
      rw [hp, hb] at ih
      rw [← ih]
      simp [Option.toList, List.append_assoc]
    | finish u hb =>
      rw [hb] at ih
      rw [← ih]
      simp [Option.toList, List.append_assoc]

/-- C5: dispatcher ordering.  In every reachable dispatcher state the
completed URLs followed by the in-flight URL and the still-pending URLs equal
the arrival sequence, so the single worker processes URLs in exactly their
arrival order; the processed list is always a prefix of the arrival order; at
most one URL is ever in flight; and no step replaces the in-flight URL by
another without passing through the idle worker state — each URL is processed
to completion before the next hand-off, so the launcher is never invoked
concurrently for two URLs. -/
theorem dispatcher_fifo_order (s : DispatchState) (h : Reachable s) :
    s.processed ++ s.busy.toList ++ s.pending = s.arrived ∧
    (∃ rest, s.processed ++ rest = s.arrived) ∧
    s.busy.toList.length ≤ 1 ∧
    (∀ s', DStep s s' → s.busy = none ∨ s'.busy = none ∨ s'.busy = s.busy) := by
  refine ⟨reachable_order_invariant s h, ?_, ?_, ?_⟩
  · refine ⟨s.busy.toList ++ s.pending, ?_⟩
    rw [← List.append_assoc]
    exact reachable_order_invariant s h
  · cases s.busy <;> simp [Option.toList]
  · intro s' hstep
    cases hstep with
    | arrive u => right; right; rfl
    | handoff u rest hp hb => left; exact hb
    | finish u hb => right; left; rfl

/-- C5 witness: after the trace arrive "u1", arrive "u2", hand off "u1",
finish "u1", the processed list ["u1"] is a prefix of the arrival order
["u1", "u2"]. -/
theorem dispatcher_fifo_order_witness :
    ∃ rest, (["u1"] : List String) ++ rest = ["u1", "u2"] :=
  (dispatcher_fifo_order ⟨["u1", "u2"], ["u2"], none, ["u1"]⟩
    (Relation.ReflTransGen.tail
      (Relation.ReflTransGen.tail
        (Relation.ReflTransGen.tail
          (Relation.ReflTransGen.tail Relation.ReflTransGen.refl
            (DStep.arrive initDispatch "u1"))
          (DStep.arrive ⟨["u1"], ["u1"], none, []⟩ "u2"))
        (DStep.handoff ⟨["u1", "u2"], ["u1", "u2"], none, []⟩ "u1" ["u2"] rfl rfl))
      (DStep.finish ⟨["u1", "u2"], ["u2"], some "u1", []⟩ "u1" rfl))).2.1

/-- C9 counterexample: the `urlListener` channel is unbuffered (capacity 0),
and in the reachable state where the worker is busy launching "u1" while
"u2" has been delivered by the notifier, no dispatcher step can complete the
pending hand-off — the producer side (the `HandleURL` callback, hence the OS
notifier context) is blocked on the channel send until the worker finishes,
refuting "the hand-off completes without blocking the notifier regardless of
whether the worker is busy". -/
theorem handleURL_can_block_counterexample :
    urlListenerCapacity = 0 ∧
    Reachable ⟨["u1", "u2"], ["u2"], some "u1", []⟩ ∧
    (⟨["u1", "u2"], ["u2"], some "u1", []⟩ : DispatchState).pending ≠ [] ∧
    ¬ ∃ s', DStep ⟨["u1", "u2"], ["u2"], some "u1", []⟩ s' ∧
        s'.pending.length <
          (⟨["u1", "u2"], ["u2"], some "u1", []⟩ : DispatchState).pending.length := by
  refine ⟨rfl, ?_, by decide, ?_⟩
  · exact Relation.ReflTransGen.tail
      (Relation.ReflTransGen.tail
        (Relation.ReflTransGen.tail Relation.ReflTransGen.refl
          (DStep.arrive initDispatch "u1"))
        (DStep.arrive ⟨["u1"], ["u1"], none, []⟩ "u2"))
      (DStep.handoff ⟨["u1", "u2"], ["u1", "u2"], none, []⟩ "u1" ["u2"] rfl rfl)
  · rintro ⟨s', hstep, hlen⟩
    cases hstep with
    | arrive u =>
      simp only [List.length_append] at hlen
      omega
    | handoff u rest hp hb => exact Option.noConfusion hb
    | finish u hb => exact absurd hlen (lt_irrefl _)

/-- C9 amended: the hand-off channel is unbuffered, so a delivered URL leaves
the producer side only in a rendezvous step requiring the worker to be idle:
any dispatcher step that shrinks the pending queue starts from a state with
`busy = none` and hands the oldest pending URL straight to the worker.  While
the worker is busy launching, the producer waits on the consumer. -/
theorem handleURL_handoff_requires_idle_worker (s s' : DispatchState)
    (hstep : DStep s s') (hlen : s'.pending.length < s.pending.length) :
    s.busy = none ∧
    ∃ u rest, s.pending = u :: rest ∧
      s' = ⟨s.arrived, rest, some u, s.processed⟩ := by
  cases hstep with
  | arrive u =>
    simp only [List.length_append] at hlen
    omega
  | handoff u rest hp hb => exact ⟨hb, u, rest, hp, rfl⟩
  | finish u hb => exact absurd hlen (lt_irrefl _)

/-- C9 amended-claim witness: the rendezvous step handing "a" to the idle
worker is the only kind of step that empties the pending queue. -/
theorem handleURL_handoff_requires_idle_worker_witness :
    (⟨["a"], ["a"], none, []⟩ : DispatchState).busy = none ∧
    ∃ u rest, (⟨["a"], ["a"], none, []⟩ : DispatchState).pending = u :: rest ∧
      (⟨["a"], [], some "a", []⟩ : DispatchState) =
        ⟨(⟨["a"], ["a"], none, []⟩ : DispatchState).arrived, rest, some u,
         (⟨["a"], ["a"], none, []⟩ : DispatchState).processed⟩ :=
  handleURL_handoff_requires_idle_worker ⟨["a"], ["a"], none, []⟩
    ⟨["a"], [], some "a", []⟩ (DStep.handoff _ "a" [] rfl rfl) (by decide)

/-- The defaulting step of `loadConfig` after JSON decoding: an empty
`chrome_app_path` becomes the stock Chrome path and an empty
`default_profile_directory` becomes "Default"; every other field — in
particular `strategy_for_unknown_urls` — passes through unvalidated and
unchanged. -/
def applyConfigDefaults (cfg : Config) : Config :=
  { cfg with
    chromeAppPath :=
      if cfg.chromeAppPath = "" then "/Applications/Google Chrome.app"
      else cfg.chromeAppPath
    defaultProfileDirectory :=
      if cfg.defaultProfileDirectory = "" then "Default"
      else cfg.defaultProfileDirectory }

/-- C10: for every URL matching no rule, any strategy value other than
"use-default-profile" — including the empty (absent) string and arbitrary
unrecognized strings — makes `chooseProfile` return the empty profile, the
use-browser-default behaviour; and the config-load defaulting step leaves the
strategy field untouched, so an absent or misspelled strategy is neither
rejected at load time nor redirected to the default profile. -/
theorem unknown_strategy_silently_browser_default (url : String) (cfg : Config)
    (hnone : ∀ r ∈ cfg.compiledRules, ruleMatches r url = false)
    (hstrat : cfg.strategyForUnknownUrls ≠ StrategyForUnknownUrlsUseDefaultProfile) :
    chooseProfile url cfg = "" ∧
    (applyConfigDefaults cfg).strategyForUnknownUrls =
      cfg.strategyForUnknownUrls := by
  constructor
  · unfold chooseProfile
    rw [findFirstProfile_eq_none url cfg.compiledRules hnone]
    exact if_neg hstrat
  · rfl

/-- Configuration with an unset (empty) unknown-URL strategy and one rule,
used for the C10 witness. -/
def cfgUnknownStrategy : Config :=
  { chromeAppPath := "/Applications/Google Chrome.app"
    defaultProfileDirectory := "Default"
    strategyForUnknownUrls := ""
    compiledRules :=
      [ { re := fun l => decide (l = "work".toList), profileDirectory := "Work" } ] }

/-- C10 witness: with the strategy field left empty, the unmatched URL
"https://example.com" is routed to the empty profile, not to the default
profile "Default", and config loading keeps the empty strategy. -/
theorem unknown_strategy_silently_browser_default_witness :
    chooseProfile "https://example.com" cfgUnknownStrategy = "" ∧
    (applyConfigDefaults cfgUnknownStrategy).strategyForUnknownUrls =
      cfgUnknownStrategy.strategyForUnknownUrls :=
  unknown_strategy_silently_browser_default "https://example.com" cfgUnknownStrategy
    (by decide) (by decide)

end ChromeProfileRouter
